import Mathlib

/-!
Verification of the resume-screening core: the AI-assisted structured
extractor (`backend/app.py`: `parse_resume_with_ai`,
`parse_job_description_with_ai`) and the SQLite session store
(`backend/database.py`: `ScreeningDatabase`), shallowly embedded in Lean.

The generative-model request, markdown-fence stripping and `json.loads`
together either yield a decoded JSON value or raise; that boundary is
embedded as an `Option Json` argument: `none` models any exception raised
inside the `try` block before the record is built, `some j` a successful
decode of the (stripped) response text.
-/

namespace ResumeScreening

/-- JSON values as produced by Python's `json.loads`: null, booleans,
numbers (ints and floats, embedded as rationals), strings, arrays and
objects (association lists of string keys). -/
inductive Json where
  | null : Json
  | bool (b : Bool) : Json
  | num (q : ℚ) : Json
  | str (s : String) : Json
  | arr (elems : List Json) : Json
  | obj (fields : List (String × Json)) : Json

/-- Python `data.get(key, default)` on a decoded JSON object's field list. -/
def lookupD (fields : List (String × Json)) (key : String) (default : Json) : Json :=
  match fields.lookup key with
  | some v => v
  | none => default

/-- The `Resume` dataclass as built by `parse_resume_with_ai`. Python is
dynamically typed: apart from `id` (always built from the filename string)
every field holds whatever JSON value `data.get` returned, so the fields
are embedded as `Json`. -/
structure Resume where
  id : String
  name : Json
  email : Json
  phone : Json
  skills : Json
  experience : Json
  education : Json
  summary : Json

/-- Python `str.replace` on character lists: leftmost, non-overlapping
replacement of every occurrence of `pat` by `rep` (for nonempty `pat`;
the empty pattern, never used by the program, is a no-op here). -/
def replaceList (pat rep : List Char) : Nat → List Char → List Char
  | _, [] => []
  | 0, l => l
  | fuel + 1, c :: rest =>
    if pat ≠ [] ∧ pat.isPrefixOf (c :: rest) then
      rep ++ replaceList pat rep fuel ((c :: rest).drop pat.length)
    else c :: replaceList pat rep fuel rest

/-- Python `s.replace(pat, rep)`.  The fuel argument `s.data.length` is
never exhausted: every step of `replaceList` consumes at least one
character. -/
def pyReplace (s pat rep : String) : String :=
  ⟨replaceList pat.data rep.data s.data.length s.data⟩

/-- Python `s[:n]`: the prefix of at most `n` characters. -/
def pyTake (s : String) (n : Nat) : String :=
  ⟨s.data.take n⟩

/-- Python `len(s)`: the number of characters. -/
def pyLen (s : String) : Nat :=
  s.data.length

/-- The `except` branch of `parse_resume_with_ai` (app.py lines 125-137):
the fallback `Resume` built when the AI request or JSON decode raised. -/
def fallback_resume (text filename : String) : Resume :=
  { id := pyReplace filename "." "_"
    name := .str (pyReplace (pyReplace (pyReplace (pyReplace filename "_" " ")
      ".pdf" "") ".docx" "") ".txt" "")
    email := .str ""
    phone := .str ""
    skills := .arr []
    experience := .arr []
    education := .arr []
    summary := .str (if pyLen text > 300 then pyTake text 300 else text) }

/-- `parse_resume_with_ai(text, filename, agent)` (app.py lines 50-137).
`response = none` models an exception in the request/decode steps;
`some j` a successfully decoded value.  When the decoded value is not a
dict, `data.get` raises `AttributeError`, which the same `except` catches,
so every non-object decode also lands in the fallback. -/
def parse_resume_with_ai (text filename : String) (response : Option Json) : Resume :=
  match response with
  | some (.obj fields) =>
      { id := pyReplace filename "." "_"
        name := lookupD fields "name" (.str "Candidate")
        email := lookupD fields "email" (.str "")
        phone := lookupD fields "phone" (.str "")
        skills := lookupD fields "skills" (.arr [])
        experience := lookupD fields "experience" (.arr [])
        education := lookupD fields "education" (.arr [])
        summary := lookupD fields "summary" (.str (pyTake text 300)) }
  | _ => fallback_resume text filename

/-- The `JobDescription` dataclass as built by `parse_job_description_with_ai`.
`experience_years` passes through Python's `int(...)`, so on the success
path it is an integer; the remaining fields are dynamic. -/
structure JobDescription where
  title : Json
  company : Json
  required_skills : Json
  preferred_skills : Json
  experience_years : Int
  responsibilities : Json
  qualifications : Json
  description : Json

/-- Python `int(s)` on a string: strip whitespace, optional sign, decimal
digits.  (Underscore digit separators, accepted by CPython, are not
modelled; no theorem depends on string coercion.) -/
def pyIntOfString (s : String) : Option Int :=
  let core : List Char → Option Int := fun ds =>
    if ds ≠ [] ∧ ds.all (·.isDigit) then
      some (Int.ofNat (ds.foldl (fun acc c => acc * 10 + (c.toNat - 48)) 0))
    else none
  let stripped :=
    (((s.data.dropWhile Char.isWhitespace).reverse.dropWhile Char.isWhitespace).reverse)
  match stripped with
  | '+' :: ds => core ds
  | '-' :: ds => (core ds).map (fun n => -n)
  | ds => core ds

/-- Python `int(x)` on a decoded JSON value: floats truncate toward zero,
strings parse as decimal integers, booleans coerce to 0/1; `None`, lists
and dicts raise `TypeError` (modelled as `none`). -/
def pyInt : Json → Option Int
  | .num q => some (if q < 0 then ⌈q⌉ else ⌊q⌋)
  | .str s => pyIntOfString s
  | .bool b => some (if b then 1 else 0)
  | _ => none

/-- The `except` branch of `parse_job_description_with_ai`
(app.py lines 201-213): the fallback `JobDescription`. -/
def fallback_job (text : String) : JobDescription :=
  { title := .str "Position"
    company := .str "Company"
    required_skills := .arr []
    preferred_skills := .arr []
    experience_years := 0
    responsibilities := .arr []
    qualifications := .arr []
    description := .str text }

/-- `parse_job_description_with_ai(text, agent)` (app.py lines 140-213).
On the success path `int(data.get('experience_years', 0))` can itself
raise (`TypeError`/`ValueError`), landing in the same `except`; all other
fields are plain `data.get` accesses that never raise. -/
def parse_job_description_with_ai (text : String) (response : Option Json) : JobDescription :=
  match response with
  | some (.obj fields) =>
      match pyInt (lookupD fields "experience_years" (.num 0)) with
      | some n =>
          { title := lookupD fields "title" (.str "Position")
            company := lookupD fields "company" (.str "Company")
            required_skills := lookupD fields "required_skills" (.arr [])
            preferred_skills := lookupD fields "preferred_skills" (.arr [])
            experience_years := n
            responsibilities := lookupD fields "responsibilities" (.arr [])
            qualifications := lookupD fields "qualifications" (.arr [])
            description := lookupD fields "description" (.str text) }
      | none => fallback_job text
  | _ => fallback_job text

/-! ### The `json.dumps` / `json.loads` collaborators

`database.py` stores the `strengths` and `weaknesses` lists as
`json.dumps(list)` text and reads them back with `json.loads`.  Both are
Python standard-library collaborators, modelled here for lists of strings:
`dumpsStrList` mirrors `json.dumps`'s output format (`'["a", "b"]'`, with
`"`, `\` and control characters escaped; non-ASCII characters are kept
verbatim rather than `\uXXXX`-escaped), and `loadsStrList` is a decoder
for the corresponding JSON fragment. -/

/-- Lowercase hexadecimal digit for `n < 16`. -/
def hexDigit (n : Nat) : Char :=
  if n < 10 then Char.ofNat (48 + n) else Char.ofNat (87 + n)

/-- How `json.dumps` renders one character inside a JSON string. -/
def escapeChar (c : Char) : List Char :=
  if c = '"' then ['\\', '"']
  else if c = '\\' then ['\\', '\\']
  else if c = '\n' then ['\\', 'n']
  else if c = '\t' then ['\\', 't']
  else if c = '\r' then ['\\', 'r']
  else if c.toNat = 8 then ['\\', 'b']
  else if c.toNat = 12 then ['\\', 'f']
  else if c.toNat < 32 then ['\\', 'u', '0', '0', hexDigit (c.toNat / 16), hexDigit (c.toNat % 16)]
  else [c]

/-- `json.dumps` of a single string, as a character list. -/
def dumpsChars (s : String) : List Char :=
  '"' :: s.data.flatMap escapeChar ++ ['"']

/-- `json.dumps` of a list of strings: `[]`, or `["a", "b"]` with the
default `", "` item separator. -/
def dumpsStrList : List String → String
  | [] => "[]"
  | s :: rest =>
      ⟨'[' :: dumpsChars s ++ rest.flatMap (fun t => ',' :: ' ' :: dumpsChars t) ++ [']']⟩

/-- Numeric value of a hexadecimal digit character. -/
def hexVal (c : Char) : Option Nat :=
  if '0' ≤ c ∧ c ≤ '9' then some (c.toNat - 48)
  else if 'a' ≤ c ∧ c ≤ 'f' then some (c.toNat - 87)
  else if 'A' ≤ c ∧ c ≤ 'F' then some (c.toNat - 55)
  else none

/-- Single-character JSON escape sequences (`\"`, `\\`, `\/`, `\n`, `\t`,
`\r`, `\b`, `\f`). -/
def unescapeChar (e : Char) : Option Char :=
  if e = '"' then some '"'
  else if e = '\\' then some '\\'
  else if e = '/' then some '/'
  else if e = 'n' then some '\n'
  else if e = 't' then some '\t'
  else if e = 'r' then some '\r'
  else if e = 'b' then some (Char.ofNat 8)
  else if e = 'f' then some (Char.ofNat 12)
  else none

/-- JSON whitespace. -/
def isWs (c : Char) : Bool :=
  c == ' ' || c == '\t' || c == '\n' || c == '\r'

/-- Drop leading JSON whitespace. -/
def skipWs : List Char → List Char
  | [] => []
  | c :: rest => if isWs c then skipWs rest else c :: rest

/-- Decode the body of a JSON string (the opening `"` already consumed),
returning the decoded string and the characters after the closing `"`. -/
def parseStrChars : List Char → List Char → Option (String × List Char)
  | [], _ => none
  | c :: rest, acc =>
    if c = '"' then some (⟨acc.reverse⟩, rest)
    else if c = '\\' then
      match rest with
      | [] => none
      | e :: rest' =>
        if e = 'u' then
          match rest' with
          | h1 :: h2 :: h3 :: h4 :: rest'' =>
            match hexVal h1, hexVal h2, hexVal h3, hexVal h4 with
            | some a, some b, some c', some d =>
                parseStrChars rest'' (Char.ofNat (((a * 16 + b) * 16 + c') * 16 + d) :: acc)
            | _, _, _, _ => none
          | _ => none
        else (unescapeChar e).bind fun d => parseStrChars rest' (d :: acc)
    else parseStrChars rest (c :: acc)
  termination_by l _ => l.length
  decreasing_by all_goals (simp_all; try omega)

/-- Decode the remaining items of a JSON string array (after the first
item): repeatedly a `,`-separated string, until the closing `]`.  The
fuel argument bounds the recursion by the input length. -/
def parseItemsAux : Nat → List String → List Char → Option (List String × List Char)
  | 0, _, _ => none
  | fuel + 1, acc, l =>
    match skipWs l with
    | [] => none
    | c :: rest =>
      if c = ']' then some (acc.reverse, rest)
      else if c = ',' then
        match skipWs rest with
        | [] => none
        | c' :: rest' =>
          if c' = '"' then
            match parseStrChars rest' [] with
            | some (s, rest'') => parseItemsAux fuel (s :: acc) rest''
            | none => none
          else none
      else none

/-- `json.loads` restricted to the shape the store writes: a JSON array
of strings.  Fails (`none`, modelling a raised exception) on anything
else. -/
def loadsStrList (s : String) : Option (List String) :=
  match skipWs s.data with
  | [] => none
  | c :: rest =>
    if c = '[' then
      match skipWs rest with
      | [] => none
      | c' :: rest' =>
        if c' = ']' then (if skipWs rest' = [] then some [] else none)
        else if c' = '"' then
          match parseStrChars rest' [] with
          | some (s0, rest'') =>
            match parseItemsAux (rest''.length + 1) [s0] rest'' with
            | some (items, rest3) => if skipWs rest3 = [] then some items else none
            | none => none
          | none => none
        else none
    else none

/-! ### The session store (`backend/database.py`, class `ScreeningDatabase`)

Rows of the two SQLite tables, the database state, and one definition per
method.  SQLite specifics embedded: `AUTOINCREMENT` ids are modelled by
counters that start at 1 and are never reused (`DELETE` does not reset
the sequence); `ORDER BY` is modelled by `List.insertionSort`; a negative
`LIMIT` means "no limit" while `LIMIT 0` returns no rows;
`dict(cursor.fetchone())` raises `TypeError` when the query matched no
row, modelled as `none`. -/

/-- A row of the `sessions` table. -/
structure SessionRow where
  id : Nat
  job_title : String
  company : String
  timestamp : Nat
  is_hidden : Bool
  total_candidates : Nat
deriving DecidableEq

/-- A row of the `results` table.  `strengths` and `weaknesses` hold the
`json.dumps`-encoded text, exactly as the TEXT columns do. -/
structure ResultRow where
  id : Nat
  session_id : Nat
  resume_id : String
  candidate_name : String
  overall_score : ℚ
  skills_match_score : ℚ
  experience_score : ℚ
  education_score : ℚ
  reasoning : String
  strengths : String
  weaknesses : String
  recommendation : String
  rank : Nat
deriving DecidableEq

/-- One result dict handed to `save_session` (produced upstream by
`asdict(score)`); `strengths`/`weaknesses` are `Option` because
`save_session` reads them with `result.get('strengths', [])`, defaulting
a missing key to the empty list. -/
structure ScoreInput where
  resume_id : String
  candidate_name : String
  overall_score : ℚ
  skills_match_score : ℚ
  experience_score : ℚ
  education_score : ℚ
  reasoning : String
  strengths : Option (List String)
  weaknesses : Option (List String)
  recommendation : String
deriving DecidableEq

/-- A decoded result row as returned to callers by `get_session_results`
and `get_top_candidates`: the `strengths`/`weaknesses` columns have been
passed through `json.loads`. -/
structure ScoreOutput where
  id : Nat
  session_id : Nat
  resume_id : String
  candidate_name : String
  overall_score : ℚ
  skills_match_score : ℚ
  experience_score : ℚ
  education_score : ℚ
  reasoning : String
  strengths : List String
  weaknesses : List String
  recommendation : String
  rank : Nat
deriving DecidableEq

/-- The SQLite database state: the two tables plus their AUTOINCREMENT
sequences. -/
structure ScreeningDatabase where
  nextSessionId : Nat
  nextResultId : Nat
  sessions : List SessionRow
  results : List ResultRow
deriving DecidableEq

/-- The freshly initialised database (`init_database`: both tables
empty, AUTOINCREMENT sequences starting at 1). -/
def ScreeningDatabase.init : ScreeningDatabase :=
  { nextSessionId := 1, nextResultId := 1, sessions := [], results := [] }

/-- The result row inserted for the entry at 0-based position `p.1` of
the supplied list: rank is the 1-based position (`enumerate(results, 1)`),
`strengths`/`weaknesses` are encoded with `json.dumps` before the write. -/
def mkResultRow (sid base : Nat) (p : Nat × ScoreInput) : ResultRow :=
  { id := base + p.1
    session_id := sid
    resume_id := p.2.resume_id
    candidate_name := p.2.candidate_name
    overall_score := p.2.overall_score
    skills_match_score := p.2.skills_match_score
    experience_score := p.2.experience_score
    education_score := p.2.education_score
    reasoning := p.2.reasoning
    strengths := dumpsStrList (p.2.strengths.getD [])
    weaknesses := dumpsStrList (p.2.weaknesses.getD [])
    recommendation := p.2.recommendation
    rank := p.1 + 1 }

/-- `save_session(job_title, company, results)` (database.py lines
68-111): inserts the session row with `total_candidates = len(results)`,
then one result row per entry, and commits the whole as one transaction.
`now` models `CURRENT_TIMESTAMP`.  Returns the new state and the created
session id (`cursor.lastrowid`). -/
def save_session (db : ScreeningDatabase) (job_title company : String)
    (results : List ScoreInput) (now : Nat) : ScreeningDatabase × Nat :=
  let sid := db.nextSessionId
  let srow : SessionRow :=
    { id := sid, job_title := job_title, company := company, timestamp := now,
      is_hidden := false, total_candidates := results.length }
  let rrows : List ResultRow := results.enum.map (mkResultRow sid db.nextResultId)
  ({ nextSessionId := sid + 1
     nextResultId := db.nextResultId + results.length
     sessions := db.sessions ++ [srow]
     results := db.results ++ rrows }, sid)

/-- `get_all_sessions(include_hidden)` (database.py lines 113-127):
`SELECT * FROM sessions [WHERE is_hidden = 0] ORDER BY timestamp DESC`. -/
def get_all_sessions (db : ScreeningDatabase) (include_hidden : Bool) : List SessionRow :=
  (if include_hidden then db.sessions
   else db.sessions.filter fun s => !s.is_hidden).insertionSort
    fun a b => b.timestamp ≤ a.timestamp

/-- The result rows of one session in `ORDER BY rank` order
(`SELECT * FROM results WHERE session_id = ? ORDER BY rank`). -/
def sessionResultRows (db : ScreeningDatabase) (session_id : Nat) : List ResultRow :=
  (db.results.filter fun r => r.session_id == session_id).insertionSort
    fun a b => a.rank ≤ b.rank

/-- Decoding one fetched result row as both read paths do:
`result['strengths'] = json.loads(result['strengths'])` and likewise for
`weaknesses`; `none` models the `json.loads` exception on undecodable
stored text. -/
def decodeResultRow (r : ResultRow) : Option ScoreOutput :=
  match loadsStrList r.strengths, loadsStrList r.weaknesses with
  | some st, some wk =>
      some { id := r.id, session_id := r.session_id, resume_id := r.resume_id,
             candidate_name := r.candidate_name, overall_score := r.overall_score,
             skills_match_score := r.skills_match_score,
             experience_score := r.experience_score,
             education_score := r.education_score, reasoning := r.reasoning,
             strengths := st, weaknesses := wk,
             recommendation := r.recommendation, rank := r.rank }
  | _, _ => none

/-- The decoded view of the result row `mkResultRow sid base p`: what the
read paths hand back to callers after `json.loads` undoes the
`json.dumps` of the write path. -/
def mkScoreOutput (sid base : Nat) (p : Nat × ScoreInput) : ScoreOutput :=
  { id := base + p.1
    session_id := sid
    resume_id := p.2.resume_id
    candidate_name := p.2.candidate_name
    overall_score := p.2.overall_score
    skills_match_score := p.2.skills_match_score
    experience_score := p.2.experience_score
    education_score := p.2.education_score
    reasoning := p.2.reasoning
    strengths := p.2.strengths.getD []
    weaknesses := p.2.weaknesses.getD []
    recommendation := p.2.recommendation
    rank := p.1 + 1 }

/-- `get_session_results(session_id)` (database.py lines 129-150):
fetch the session row (`dict(cursor.fetchone())` raises — `none` — when
the id matches no row), then the decoded result rows ordered by rank. -/
def get_session_results (db : ScreeningDatabase) (session_id : Nat) :
    Option (SessionRow × List ScoreOutput) :=
  match db.sessions.find? (fun s => s.id == session_id) with
  | none => none
  | some srow =>
    match (sessionResultRows db session_id).mapM decodeResultRow with
    | some rows => some (srow, rows)
    | none => none

/-- `hide_session(session_id)` (database.py lines 152-158):
`UPDATE sessions SET is_hidden = 1 WHERE id = ?`. -/
def hide_session (db : ScreeningDatabase) (session_id : Nat) : ScreeningDatabase :=
  { db with sessions := db.sessions.map fun s =>
      if s.id = session_id then { s with is_hidden := true } else s }

/-- `unhide_session(session_id)` (database.py lines 160-166):
`UPDATE sessions SET is_hidden = 0 WHERE id = ?`. -/
def unhide_session (db : ScreeningDatabase) (session_id : Nat) : ScreeningDatabase :=
  { db with sessions := db.sessions.map fun s =>
      if s.id = session_id then { s with is_hidden := false } else s }

/-- `delete_session(session_id)` (database.py lines 168-175): delete the
session's result rows, then its session row, in one transaction. -/
def delete_session (db : ScreeningDatabase) (session_id : Nat) : ScreeningDatabase :=
  { db with results := db.results.filter fun r => r.session_id != session_id
            sessions := db.sessions.filter fun s => s.id != session_id }

/-- `clear_all_history()` (database.py lines 177-184): `DELETE FROM
results; DELETE FROM sessions` (AUTOINCREMENT sequences are kept). -/
def clear_all_history (db : ScreeningDatabase) : ScreeningDatabase :=
  { db with results := [], sessions := [] }

/-- `get_top_candidates(session_id, top_n)` (database.py lines 186-207):
`SELECT * FROM results WHERE session_id = ? ORDER BY rank LIMIT ?`, then
decode each fetched row.  SQLite's `LIMIT` returns all rows when the
bound is negative and no rows when it is zero. -/
def get_top_candidates (db : ScreeningDatabase) (session_id : Nat) (top_n : Int) :
    Option (List ScoreOutput) :=
  let rows := sessionResultRows db session_id
  let limited := if top_n < 0 then rows else rows.take top_n.toNat
  limited.mapM decodeResultRow

/-- One store operation, as invoked by the web layer. -/
inductive StoreOp where
  | save (job_title company : String) (results : List ScoreInput) (now : Nat)
  | hide (session_id : Nat)
  | unhide (session_id : Nat)
  | delete (session_id : Nat)
  | clear

/-- Apply one store operation to the database state. -/
def applyOp (db : ScreeningDatabase) : StoreOp → ScreeningDatabase
  | .save jt c rs now => (save_session db jt c rs now).1
  | .hide sid => hide_session db sid
  | .unhide sid => unhide_session db sid
  | .delete sid => delete_session db sid
  | .clear => clear_all_history db

/-- The database state reached from a fresh database by a sequence of
store operations. -/
def runOps (ops : List StoreOp) : ScreeningDatabase :=
  ops.foldl applyOp ScreeningDatabase.init

/-! ### Round trip of the encoded text columns -/


theorem parseStrChars_quote (rest acc : List Char) :
    parseStrChars ('"' :: rest) acc = some (⟨acc.reverse⟩, rest) := by
  rw [parseStrChars.eq_def]; simp

theorem parseStrChars_plain {c : Char} (h1 : c ≠ '"') (h2 : c ≠ '\\')
    (rest acc : List Char) :
    parseStrChars (c :: rest) acc = parseStrChars rest (c :: acc) := by
  rw [parseStrChars.eq_def]; simp [h1, h2]

theorem parseStrChars_esc {e : Char} (h : e ≠ 'u') (rest acc : List Char) :
    parseStrChars ('\\' :: e :: rest) acc =
      (unescapeChar e).bind fun d => parseStrChars rest (d :: acc) := by
  rw [parseStrChars.eq_def]; simp [h]

theorem parseStrChars_hex {a1 a2 a3 a4 : Char} {a b c' d : Nat}
    (g1 : hexVal a1 = some a) (g2 : hexVal a2 = some b)
    (g3 : hexVal a3 = some c') (g4 : hexVal a4 = some d)
    (rest acc : List Char) :
    parseStrChars ('\\' :: 'u' :: a1 :: a2 :: a3 :: a4 :: rest) acc =
      parseStrChars rest (Char.ofNat (((a * 16 + b) * 16 + c') * 16 + d) :: acc) := by
  rw [parseStrChars.eq_def]; simp [g1, g2, g3, g4]


theorem hexVal_hexDigit {d : Nat} (h : d < 16) : hexVal (hexDigit d) = some d := by
  have : ∀ d, d < 16 → hexVal (hexDigit d) = some d := by decide
  exact this d h

theorem parseStrChars_escape (cs : List Char) (acc rest : List Char) :
    parseStrChars (cs.flatMap escapeChar ++ '"' :: rest) acc =
      some (⟨acc.reverse ++ cs⟩, rest) := by
  induction cs generalizing acc with
  | nil => simp [parseStrChars_quote]
  | cons c cs ih =>
    by_cases h1 : c = '"'
    · subst h1
      rw [List.flatMap_cons, show escapeChar '"' = ['\\', '"'] from by decide]
      simp only [List.cons_append, List.nil_append]
      rw [parseStrChars_esc (by decide), show unescapeChar '"' = some '"' from by decide,
        Option.some_bind, ih]
      simp
    by_cases h2 : c = '\\'
    · subst h2
      rw [List.flatMap_cons, show escapeChar '\\' = ['\\', '\\'] from by decide]
      simp only [List.cons_append, List.nil_append]
      rw [parseStrChars_esc (by decide), show unescapeChar '\\' = some '\\' from by decide,
        Option.some_bind, ih]
      simp
    by_cases h3 : c = '\n'
    · subst h3
      rw [List.flatMap_cons, show escapeChar '\n' = ['\\', 'n'] from by decide]
      simp only [List.cons_append, List.nil_append]
      rw [parseStrChars_esc (by decide), show unescapeChar 'n' = some '\n' from by decide,
        Option.some_bind, ih]
      simp
    by_cases h4 : c = '\t'
    · subst h4
      rw [List.flatMap_cons, show escapeChar '\t' = ['\\', 't'] from by decide]
      simp only [List.cons_append, List.nil_append]
      rw [parseStrChars_esc (by decide), show unescapeChar 't' = some '\t' from by decide,
        Option.some_bind, ih]
      simp
    by_cases h5 : c = '\r'
    · subst h5
      rw [List.flatMap_cons, show escapeChar '\r' = ['\\', 'r'] from by decide]
      simp only [List.cons_append, List.nil_append]
      rw [parseStrChars_esc (by decide), show unescapeChar 'r' = some '\r' from by decide,
        Option.some_bind, ih]
      simp
    by_cases h6 : c.toNat = 8
    · have hc : c = Char.ofNat 8 := by rw [← Char.ofNat_toNat c, h6]
      subst hc
      rw [List.flatMap_cons, show escapeChar (Char.ofNat 8) = ['\\', 'b'] from by decide]
      simp only [List.cons_append, List.nil_append]
      rw [parseStrChars_esc (by decide),
        show unescapeChar 'b' = some (Char.ofNat 8) from by decide, Option.some_bind, ih]
      simp
    by_cases h7 : c.toNat = 12
    · have hc : c = Char.ofNat 12 := by rw [← Char.ofNat_toNat c, h7]
      subst hc
      rw [List.flatMap_cons, show escapeChar (Char.ofNat 12) = ['\\', 'f'] from by decide]
      simp only [List.cons_append, List.nil_append]
      rw [parseStrChars_esc (by decide),
        show unescapeChar 'f' = some (Char.ofNat 12) from by decide, Option.some_bind, ih]
      simp
    by_cases h8 : c.toNat < 32
    · have he : escapeChar c =
          ['\\', 'u', '0', '0', hexDigit (c.toNat / 16), hexDigit (c.toNat % 16)] := by
        simp only [escapeChar, if_neg h1, if_neg h2, if_neg h3, if_neg h4, if_neg h5,
          if_neg h6, if_neg h7, if_pos h8]
      rw [List.flatMap_cons, he]
      simp only [List.cons_append, List.nil_append]
      rw [parseStrChars_hex (show hexVal '0' = some 0 from by decide)
        (show hexVal '0' = some 0 from by decide)
        (hexVal_hexDigit (show c.toNat / 16 < 16 by omega))
        (hexVal_hexDigit (show c.toNat % 16 < 16 by omega))]
      rw [show ((0 * 16 + 0) * 16 + c.toNat / 16) * 16 + c.toNat % 16 = c.toNat from by omega]
      rw [Char.ofNat_toNat, ih]
      simp
    · have he : escapeChar c = [c] := by
        simp only [escapeChar, if_neg h1, if_neg h2, if_neg h3, if_neg h4, if_neg h5,
          if_neg h6, if_neg h7, if_neg h8]
      rw [List.flatMap_cons, he]
      simp only [List.cons_append, List.nil_append]
      rw [parseStrChars_plain h1 h2, ih]
      simp


theorem skipWs_not_ws {c : Char} (h : isWs c = false) (l : List Char) :
    skipWs (c :: l) = c :: l := by simp [skipWs, h]

theorem skipWs_space (l : List Char) : skipWs (' ' :: l) = skipWs l := by
  simp [skipWs, isWs]

theorem parseItemsAux_encode (items : List String) :
    ∀ (fuel : Nat) (acc : List String) (rest : List Char), items.length < fuel →
    parseItemsAux fuel acc
        (items.flatMap (fun t => ',' :: ' ' :: dumpsChars t) ++ ']' :: rest) =
      some (acc.reverse ++ items, rest) := by
  induction items with
  | nil =>
    intro fuel acc rest h
    match fuel, h with
    | fuel + 1, _ =>
      simp only [List.flatMap_nil, List.nil_append]
      rw [parseItemsAux, skipWs_not_ws (by decide)]
      simp
  | cons t ts ih =>
    intro fuel acc rest h
    match fuel, h with
    | fuel + 1, h =>
      simp only [List.flatMap_cons, List.cons_append, List.append_assoc]
      rw [parseItemsAux, skipWs_not_ws (by decide)]
      simp only [if_neg (by decide : ¬(',' = ']')), if_pos rfl]
      rw [skipWs_space]
      rw [show dumpsChars t ++ (ts.flatMap (fun t => ',' :: ' ' :: dumpsChars t) ++ ']' :: rest)
            = '"' :: (t.data.flatMap escapeChar ++
                '"' :: (ts.flatMap (fun t => ',' :: ' ' :: dumpsChars t) ++ ']' :: rest)) from by
        simp [dumpsChars]]
      rw [skipWs_not_ws (by decide)]
      simp only [if_pos rfl]
      rw [parseStrChars_escape]
      simp only [List.reverse_nil, List.nil_append]
      rw [ih fuel (t :: acc) rest (by simpa using Nat.lt_of_succ_lt_succ h)]
      simp

theorem length_le_length_flatMap_sep (rest : List String) :
    rest.length ≤ (rest.flatMap (fun t => ',' :: ' ' :: dumpsChars t)).length := by
  induction rest with
  | nil => simp
  | cons t ts ih => simp only [List.flatMap_cons, List.length_append, List.length_cons]; omega

theorem loadsStrList_dumpsStrList (l : List String) :
    loadsStrList (dumpsStrList l) = some l := by
  cases l with
  | nil => decide
  | cons s rest =>
    rw [dumpsStrList, loadsStrList]
    simp only [List.cons_append, List.append_assoc]
    rw [skipWs_not_ws (by decide)]
    simp only [if_pos rfl]
    rw [show dumpsChars s ++ (rest.flatMap (fun t => ',' :: ' ' :: dumpsChars t) ++ [']'])
          = '"' :: (s.data.flatMap escapeChar ++
              '"' :: (rest.flatMap (fun t => ',' :: ' ' :: dumpsChars t) ++ [']'])) from by
      simp [dumpsChars]]
    rw [skipWs_not_ws (by decide)]
    simp only [if_neg (by decide : ¬('"' = ']')), if_pos rfl]
    rw [parseStrChars_escape]
    simp only [List.reverse_nil, List.nil_append]
    rw [show (rest.flatMap (fun t => ',' :: ' ' :: dumpsChars t) ++ [']'])
          = (rest.flatMap (fun t => ',' :: ' ' :: dumpsChars t) ++ ']' :: []) from rfl]
    rw [parseItemsAux_encode rest _ [s] [] (by
      have := length_le_length_flatMap_sep rest
      simp only [List.length_append, List.length_cons] at this ⊢
      omega)]
    simp [skipWs]


theorem mem_saveRows {sid base : Nat} {rs : List ScoreInput} {r : ResultRow}
    (h : r ∈ rs.enum.map (mkResultRow sid base)) : r.session_id = sid := by
  obtain ⟨p, _, rfl⟩ := List.mem_map.mp h
  rfl

theorem filter_saveRows_ne {sid base d : Nat} (rs : List ScoreInput) (h : d ≠ sid) :
    (rs.enum.map (mkResultRow sid base)).filter (fun r => r.session_id == d) = [] := by
  rw [List.filter_eq_nil_iff]
  intro r hr
  have hrs := mem_saveRows hr
  simp [hrs]
  omega

theorem filter_saveRows_eq {sid base : Nat} (rs : List ScoreInput) :
    (rs.enum.map (mkResultRow sid base)).filter (fun r => r.session_id == sid)
      = rs.enum.map (mkResultRow sid base) := by
  rw [List.filter_eq_self]
  intro r hr
  simp [mem_saveRows hr]

/-- The store invariant maintained by every operation: session ids are
below the AUTOINCREMENT counter, every session's result-row count equals
its `total_candidates` column, every result row belongs to an existing
session, and the collection columns always hold `json.dumps`-encoded
text. -/
structure Inv (db : ScreeningDatabase) : Prop where
  sid_lt : ∀ s ∈ db.sessions, s.id < db.nextSessionId
  counts : ∀ s ∈ db.sessions,
    (db.results.filter fun r => r.session_id == s.id).length = s.total_candidates
  owner : ∀ r ∈ db.results, ∃ s ∈ db.sessions, s.id = r.session_id
  encoded : ∀ r ∈ db.results,
    (∃ l, r.strengths = dumpsStrList l) ∧ ∃ l, r.weaknesses = dumpsStrList l

theorem inv_init : Inv ScreeningDatabase.init := by
  constructor <;> simp [ScreeningDatabase.init]

theorem results_ne_next {db : ScreeningDatabase} (h : Inv db) :
    ∀ r ∈ db.results, r.session_id ≠ db.nextSessionId := by
  intro r hr
  obtain ⟨s, hs, hid⟩ := h.owner r hr
  have := h.sid_lt s hs
  omega

theorem inv_save {db : ScreeningDatabase} (h : Inv db) (jt c : String)
    (rs : List ScoreInput) (now : Nat) : Inv (save_session db jt c rs now).1 := by
  have hne := results_ne_next h
  constructor
  · intro s hs
    simp only [save_session, List.mem_append, List.mem_singleton] at hs ⊢
    rcases hs with hs | rfl
    · have := h.sid_lt s hs; omega
    · simp
  · intro s hs
    simp only [save_session, List.mem_append, List.mem_singleton] at hs ⊢
    rw [List.filter_append]
    rcases hs with hs | rfl
    · have hlt := h.sid_lt s hs
      rw [filter_saveRows_ne rs (by omega)]
      simpa using h.counts s hs
    · have hold : db.results.filter (fun r => r.session_id == db.nextSessionId) = [] := by
        rw [List.filter_eq_nil_iff]
        intro r hr
        simp [hne r hr]
      simp only [hold, filter_saveRows_eq, List.nil_append, List.length_map,
        List.enum_length]
  · intro r hr
    simp only [save_session, List.mem_append] at hr ⊢
    rcases hr with hr | hr
    · obtain ⟨s, hs, hid⟩ := h.owner r hr
      exact ⟨s, Or.inl hs, hid⟩
    · refine ⟨_, Or.inr (List.mem_singleton.mpr rfl), ?_⟩
      simp [mem_saveRows hr]
  · intro r hr
    simp only [save_session, List.mem_append] at hr
    rcases hr with hr | hr
    · exact h.encoded r hr
    · obtain ⟨p, _, rfl⟩ := List.mem_map.mp hr
      exact ⟨⟨_, rfl⟩, ⟨_, rfl⟩⟩

theorem inv_setHidden {db : ScreeningDatabase} (h : Inv db) (sid : Nat) (b : Bool) :
    Inv { db with sessions := db.sessions.map fun s =>
            if s.id = sid then { s with is_hidden := b } else s } := by
  have hid : ∀ s : SessionRow,
      (if s.id = sid then { s with is_hidden := b } else s).id = s.id := by
    intro s; by_cases hs : s.id = sid <;> simp [hs]
  have htc : ∀ s : SessionRow,
      (if s.id = sid then { s with is_hidden := b } else s).total_candidates
        = s.total_candidates := by
    intro s; by_cases hs : s.id = sid <;> simp [hs]
  constructor
  · intro s hs
    obtain ⟨s0, hs0, rfl⟩ := List.mem_map.mp hs
    rw [hid]
    exact h.sid_lt s0 hs0
  · intro s hs
    obtain ⟨s0, hs0, rfl⟩ := List.mem_map.mp hs
    rw [hid, htc]
    exact h.counts s0 hs0
  · intro r hr
    obtain ⟨s0, hs0, hid0⟩ := h.owner r hr
    exact ⟨_, List.mem_map.mpr ⟨s0, hs0, rfl⟩, by rw [hid]; exact hid0⟩
  · exact h.encoded

theorem inv_hide {db : ScreeningDatabase} (h : Inv db) (sid : Nat) :
    Inv (hide_session db sid) := inv_setHidden h sid true

theorem inv_unhide {db : ScreeningDatabase} (h : Inv db) (sid : Nat) :
    Inv (unhide_session db sid) := inv_setHidden h sid false

theorem inv_delete {db : ScreeningDatabase} (h : Inv db) (sid : Nat) :
    Inv (delete_session db sid) := by
  constructor
  · intro s hs
    exact h.sid_lt s (List.mem_filter.mp hs).1
  · intro s hs
    obtain ⟨hs0, hne⟩ := List.mem_filter.mp hs
    have hsid : s.id ≠ sid := by simpa using hne
    have hcong : db.results.filter
          (fun a => (a.session_id == s.id) && (a.session_id != sid))
        = db.results.filter (fun r => r.session_id == s.id) :=
      List.filter_congr (fun r _ => by
        by_cases hc : r.session_id = s.id <;> simp [hc, hsid])
    simp only [delete_session]
    rw [List.filter_filter, hcong]
    exact h.counts s hs0
  · intro r hr
    obtain ⟨hr0, hne⟩ := List.mem_filter.mp hr
    obtain ⟨s, hs, hid⟩ := h.owner r hr0
    refine ⟨s, List.mem_filter.mpr ⟨hs, ?_⟩, hid⟩
    simp only [bne_iff_ne, ne_eq]
    intro hc
    rw [hc] at hid
    rw [← hid] at hne
    simp at hne
  · intro r hr
    exact h.encoded r (List.mem_filter.mp hr).1

theorem inv_clear {db : ScreeningDatabase} (_ : Inv db) :
    Inv (clear_all_history db) := by
  constructor <;> simp [clear_all_history]

theorem inv_apply {db : ScreeningDatabase} (h : Inv db) (op : StoreOp) :
    Inv (applyOp db op) := by
  cases op with
  | save jt c rs now => exact inv_save h jt c rs now
  | hide sid => exact inv_hide h sid
  | unhide sid => exact inv_unhide h sid
  | delete sid => exact inv_delete h sid
  | clear => exact inv_clear h

theorem inv_foldl (ops : List StoreOp) :
    ∀ db, Inv db → Inv (ops.foldl applyOp db) := by
  induction ops with
  | nil => intro db h; exact h
  | cons op ops ih => intro db h; exact ih _ (inv_apply h op)

theorem inv_runOps (ops : List StoreOp) : Inv (runOps ops) :=
  inv_foldl ops _ inv_init



/-- Any response, decoded or failed, yields the id built from the
filename with dots replaced by underscores (both the success and the
fallback branch compute `filename.replace('.', '_')`). -/
theorem resume_id_eq (text filename : String) (response : Option Json) :
    (parse_resume_with_ai text filename response).id = pyReplace filename "." "_" := by
  match response with
  | none => rfl
  | some .null => rfl
  | some (.bool b) => rfl
  | some (.num q) => rfl
  | some (.str s) => rfl
  | some (.arr l) => rfl
  | some (.obj fields) => rfl

/-- Claim C1: when the AI request or the JSON decode inside
`extract_candidate` raises, the extractor does not raise but returns the
fallback record: id is the filename with dots replaced by underscores
(so "john_doe.pdf" yields "john_doe_pdf"), name is heuristically derived
from the filename (separators replaced, extensions stripped), email,
phone, skills, experience and education are empty, and the summary is
the first 300 characters of the raw text. -/
theorem C1_fallback_record (text filename : String) :
    (parse_resume_with_ai text filename none).id = pyReplace filename "." "_" ∧
    (parse_resume_with_ai text filename none).name =
      .str (pyReplace (pyReplace (pyReplace (pyReplace filename "_" " ")
        ".pdf" "") ".docx" "") ".txt" "") ∧
    (parse_resume_with_ai text filename none).email = .str "" ∧
    (parse_resume_with_ai text filename none).phone = .str "" ∧
    (parse_resume_with_ai text filename none).skills = .arr [] ∧
    (parse_resume_with_ai text filename none).experience = .arr [] ∧
    (parse_resume_with_ai text filename none).education = .arr [] ∧
    (parse_resume_with_ai text filename none).summary = .str (pyTake text 300) ∧
    pyReplace "john_doe.pdf" "." "_" = "john_doe_pdf" := by
  refine ⟨rfl, rfl, rfl, rfl, rfl, rfl, rfl, ?_, by decide⟩
  show Json.str (if pyLen text > 300 then pyTake text 300 else text) = .str (pyTake text 300)
  by_cases h : pyLen text > 300
  · rw [if_pos h]
  · rw [if_neg h]
    congr 1
    show text = ⟨text.data.take 300⟩
    rw [List.take_of_length_le (by simpa [pyLen] using Nat.le_of_not_lt h)]

/-- Claim C2 counterexample: a response that decodes as valid JSON with a
wrongly-typed field (a string where a list is expected) is NOT treated as
a decode failure: both extractors return a record containing the
wrongly-typed value instead of the fallback. -/
theorem C2_counterexample :
    (parse_resume_with_ai "txt" "cv.pdf"
        (some (.obj [("skills", .str "python")]))).skills = .str "python" ∧
    parse_resume_with_ai "txt" "cv.pdf" (some (.obj [("skills", .str "python")]))
      ≠ fallback_resume "txt" "cv.pdf" ∧
    (parse_job_description_with_ai "txt"
        (some (.obj [("required_skills", .str "python")]))).required_skills
      = .str "python" ∧
    parse_job_description_with_ai "txt" (some (.obj [("required_skills", .str "python")]))
      ≠ fallback_job "txt" := by
  refine ⟨rfl, ?_, rfl, ?_⟩
  · intro h
    exact Json.noConfusion (congrArg Resume.skills h)
  · intro h
    exact Json.noConfusion (congrArg JobDescription.required_skills h)


/-- Claim C2, corrected: a valid-JSON response with a wrongly-typed field
is not treated as a decode failure — `data.get` copies the value into the
record unchanged.  The one exception is the job extractor's
`experience_years`: its `int(...)` coercion raises on an uncoercible
value, which triggers the full fallback record. -/
theorem C2_amended (t f : String) (kvs : List (String × Json)) :
    (parse_resume_with_ai t f (some (.obj kvs))).skills = lookupD kvs "skills" (.arr []) ∧
    (∀ n, pyInt (lookupD kvs "experience_years" (.num 0)) = some n →
        (parse_job_description_with_ai t (some (.obj kvs))).required_skills
          = lookupD kvs "required_skills" (.arr [])) ∧
    (pyInt (lookupD kvs "experience_years" (.num 0)) = none →
        parse_job_description_with_ai t (some (.obj kvs)) = fallback_job t) := by
  refine ⟨rfl, ?_, ?_⟩
  · intro n hn
    simp [parse_job_description_with_ai, hn]
  · intro hn
    simp [parse_job_description_with_ai, hn]

theorem C2_amended_witness :
    (parse_resume_with_ai "t" "f"
        (some (.obj [("skills", .str "python"), ("experience_years", .arr [])]))).skills
      = .str "python" ∧
    parse_job_description_with_ai "t"
        (some (.obj [("skills", .str "python"), ("experience_years", .arr [])]))
      = fallback_job "t" := by
  have h := C2_amended "t" "f" [("skills", .str "python"), ("experience_years", .arr [])]
  exact ⟨h.1, h.2.2 rfl⟩

/-- Claim C8 counterexample: on decode success with absent fields, the
defaults are not the claimed ones: the candidate name defaults to
"Candidate" (not the empty string), the job title and company to
"Position" and "Company", and the job description to the FULL raw text
(not a truncated prefix — here a 301-character text is kept whole). -/
theorem C8_counterexample :
    (parse_resume_with_ai "raw" "cv.pdf" (some (.obj []))).name = .str "Candidate" ∧
    Json.str "Candidate" ≠ Json.str "" ∧
    (parse_job_description_with_ai "raw" (some (.obj []))).title = .str "Position" ∧
    (parse_job_description_with_ai "raw" (some (.obj []))).company = .str "Company" ∧
    (parse_job_description_with_ai (⟨List.replicate 301 'a'⟩ : String)
        (some (.obj []))).description = .str ⟨List.replicate 301 'a'⟩ ∧
    pyLen ⟨List.replicate 301 'a'⟩ = 301 := by
  refine ⟨rfl, ?_, rfl, rfl, rfl, List.length_replicate ..⟩
  intro h
  simp at h

/-- Claim C8, corrected: on decode success each absent field gets a
defined default, namely: candidate name "Candidate", email and phone
empty, collections empty, summary the first 300 characters of the raw
text; job title "Position", company "Company", skill/responsibility/
qualification collections empty, experience_years 0, and description the
FULL raw text. -/
theorem C8_amended (text f : String) :
    parse_resume_with_ai text f (some (.obj [])) =
      { id := pyReplace f "." "_", name := .str "Candidate", email := .str "",
        phone := .str "", skills := .arr [], experience := .arr [],
        education := .arr [], summary := .str (pyTake text 300) } ∧
    parse_job_description_with_ai text (some (.obj [])) =
      { title := .str "Position", company := .str "Company",
        required_skills := .arr [], preferred_skills := .arr [],
        experience_years := 0, responsibilities := .arr [],
        qualifications := .arr [], description := .str text } :=
  ⟨rfl, rfl⟩

/-- Claim C9 counterexample: the id map `filename.replace('.', '_')` is
not collision-free: the distinct filenames "a.b" and "a_b" (both are
fixed points of the upload sanitizer) receive the same id. -/
theorem C9_counterexample :
    (parse_resume_with_ai "" "a.b" none).id = (parse_resume_with_ai "" "a_b" none).id ∧
    "a.b" ≠ "a_b" :=
  ⟨by decide, by decide⟩

/-- Claim C9, corrected: each candidate's id is derived deterministically
from the sanitized filename and is stable — the success path and the
fallback path assign the same id for the same filename — but it is NOT
collision-free: distinct filenames can share an id. -/
theorem C9_amended (t1 t2 f : String) (r1 r2 : Option Json) :
    (parse_resume_with_ai t1 f r1).id = pyReplace f "." "_" ∧
    (parse_resume_with_ai t1 f r1).id = (parse_resume_with_ai t2 f r2).id := by
  refine ⟨resume_id_eq t1 f r1, ?_⟩
  rw [resume_id_eq, resume_id_eq]


/-- If a function succeeds pointwise on a mapped list, `mapM` succeeds
with the mapped results. -/
theorem mapM_map_eq_some {α β γ : Type} (l : List α) (f : α → β) (F : β → Option γ)
    (g : α → γ) (h : ∀ a ∈ l, F (f a) = some (g a)) :
    (l.map f).mapM F = some (l.map g) := by
  induction l with
  | nil => rfl
  | cons a l ih =>
    rw [List.map_cons, List.mapM_cons, h a (List.mem_cons_self a l),
      ih (fun b hb => h b (List.mem_cons_of_mem a hb))]
    rfl

theorem decode_mkResultRow (sid base : Nat) (p : Nat × ScoreInput) :
    decodeResultRow (mkResultRow sid base p) = some (mkScoreOutput sid base p) := by
  simp [decodeResultRow, mkResultRow, mkScoreOutput, loadsStrList_dumpsStrList]

theorem sorted_saveRows (sid base : Nat) (rs : List ScoreInput) :
    List.Sorted (fun a b : ResultRow => a.rank ≤ b.rank)
      (rs.enum.map (mkResultRow sid base)) := by
  have h1 : List.Pairwise (fun p q : Nat × ScoreInput => p.1 < q.1) rs.enum := by
    have h0 := List.pairwise_lt_range rs.length
    rw [← List.enum_map_fst rs] at h0
    exact List.pairwise_map.mp h0
  rw [List.Sorted, List.pairwise_map]
  refine h1.imp ?_
  intro a b hab
  show a.1 + 1 ≤ b.1 + 1
  omega

theorem filter_results_save {db : ScreeningDatabase} (h : Inv db) (jt c : String)
    (rs : List ScoreInput) (now : Nat) :
    (save_session db jt c rs now).1.results.filter
        (fun r => r.session_id == db.nextSessionId)
      = rs.enum.map (mkResultRow db.nextSessionId db.nextResultId) := by
  have hold : db.results.filter (fun r => r.session_id == db.nextSessionId) = [] := by
    rw [List.filter_eq_nil_iff]
    intro r hr
    simp [results_ne_next h r hr]
  simp only [save_session, List.filter_append, hold, filter_saveRows_eq, List.nil_append]

theorem sessionResultRows_save {db : ScreeningDatabase} (h : Inv db) (jt c : String)
    (rs : List ScoreInput) (now : Nat) :
    sessionResultRows (save_session db jt c rs now).1 db.nextSessionId
      = rs.enum.map (mkResultRow db.nextSessionId db.nextResultId) := by
  rw [sessionResultRows]
  rw [show (save_session db jt c rs now).1.results = db.results ++
        rs.enum.map (mkResultRow db.nextSessionId db.nextResultId) from rfl]
  have hold : db.results.filter (fun r => r.session_id == db.nextSessionId) = [] := by
    rw [List.filter_eq_nil_iff]
    intro r hr
    simp [results_ne_next h r hr]
  rw [List.filter_append, hold, filter_saveRows_eq, List.nil_append]
  exact (sorted_saveRows _ _ _).insertionSort_eq

theorem find?_sessions_save {db : ScreeningDatabase} (h : Inv db) (jt c : String)
    (rs : List ScoreInput) (now : Nat) :
    (save_session db jt c rs now).1.sessions.find? (fun s => s.id == db.nextSessionId)
      = some { id := db.nextSessionId, job_title := jt, company := c, timestamp := now,
               is_hidden := false, total_candidates := rs.length } := by
  rw [show (save_session db jt c rs now).1.sessions = db.sessions ++
        [{ id := db.nextSessionId, job_title := jt, company := c, timestamp := now,
           is_hidden := false, total_candidates := rs.length }] from rfl]
  rw [List.find?_append]
  have hnone : db.sessions.find? (fun s => s.id == db.nextSessionId) = none := by
    rw [List.find?_eq_none]
    intro s hs
    have := h.sid_lt s hs
    simp
    omega
  rw [hnone]
  simp [List.find?]

theorem get_session_results_save {db : ScreeningDatabase} (h : Inv db) (jt c : String)
    (rs : List ScoreInput) (now : Nat) :
    get_session_results (save_session db jt c rs now).1 db.nextSessionId
      = some ({ id := db.nextSessionId, job_title := jt, company := c, timestamp := now,
                is_hidden := false, total_candidates := rs.length },
              rs.enum.map (mkScoreOutput db.nextSessionId db.nextResultId)) := by
  rw [get_session_results, find?_sessions_save h jt c rs now,
    sessionResultRows_save h jt c rs now,
    mapM_map_eq_some _ _ _ _ (fun p _ => decode_mkResultRow _ _ p)]

theorem get_top_candidates_save {db : ScreeningDatabase} (h : Inv db) (jt c : String)
    (rs : List ScoreInput) (now : Nat) :
    get_top_candidates (save_session db jt c rs now).1 db.nextSessionId
        (Int.ofNat rs.length)
      = some (rs.enum.map (mkScoreOutput db.nextSessionId db.nextResultId)) := by
  rw [get_top_candidates, sessionResultRows_save h jt c rs now]
  have hneg : ¬ (Int.ofNat rs.length < 0) := Int.not_lt.mpr (Int.ofNat_zero_le rs.length)
  rw [if_neg hneg]
  rw [List.take_of_length_le (by simp [Int.toNat_ofNat])]
  exact mapM_map_eq_some _ _ _ _ (fun p _ => decode_mkResultRow _ _ p)


/-- `mapM` succeeds when the function succeeds on every element. -/
theorem mapM_eq_some_of_forall {α β : Type} (F : α → Option β) :
    ∀ (l : List α), (∀ a ∈ l, ∃ b, F a = some b) →
      ∃ l2, l.mapM F = some l2 := by
  intro l
  induction l with
  | nil => intro _; exact ⟨[], rfl⟩
  | cons a l ih =>
    intro hall
    obtain ⟨b, hb⟩ := hall a (List.mem_cons_self a l)
    obtain ⟨l2, hl2⟩ := ih (fun x hx => hall x (List.mem_cons_of_mem a hx))
    exact ⟨b :: l2, by rw [List.mapM_cons, hb, hl2]; rfl⟩

/-- A successful `mapM` restricts to every `take`-prefix. -/
theorem mapM_take_of_mapM {α β : Type} (F : α → Option β) :
    ∀ (l : List α) (l2 : List β) (k : Nat), l.mapM F = some l2 →
      (l.take k).mapM F = some (l2.take k) := by
  intro l
  induction l with
  | nil =>
    intro l2 k h
    have h0 : l2 = [] := by
      have : (some [] : Option (List β)) = some l2 := by rw [← h]; rfl
      exact (Option.some_inj.mp this).symm
    subst h0
    simp [List.take_nil]
    rfl
  | cons a l ih =>
    intro l2 k h
    rw [List.mapM_cons] at h
    cases hFa : F a with
    | none => rw [hFa] at h; simp at h
    | some b =>
      rw [hFa] at h
      cases hM : l.mapM F with
      | none => rw [hM] at h; simp at h
      | some bs =>
        rw [hM] at h
        simp only [Option.bind_some, Option.pure_def] at h
        have hl2 : l2 = b :: bs := by
          have := h
          simp at this
          exact this.symm
        subst hl2
        cases k with
        | zero => simp; rfl
        | succ k =>
          rw [List.take_succ_cons, List.take_succ_cons, List.mapM_cons, hFa,
            ih bs k hM]
          rfl

/-- On a reachable state every stored result row decodes, so the decode
pass of the read paths cannot fail. -/
theorem decodeRows_of_inv {db : ScreeningDatabase} (h : Inv db) (sid : Nat) :
    ∃ rows, (sessionResultRows db sid).mapM decodeResultRow = some rows := by
  apply mapM_eq_some_of_forall
  intro r hr
  have hmem : r ∈ db.results := by
    have h1 : r ∈ (db.results.filter fun r => r.session_id == sid) := by
      simpa [sessionResultRows] using hr
    exact (List.mem_filter.mp h1).1
  obtain ⟨⟨l1, e1⟩, ⟨l2, e2⟩⟩ := h.encoded r hmem
  have hdec : decodeResultRow r = some
      { id := r.id, session_id := r.session_id, resume_id := r.resume_id,
        candidate_name := r.candidate_name, overall_score := r.overall_score,
        skills_match_score := r.skills_match_score,
        experience_score := r.experience_score,
        education_score := r.education_score, reasoning := r.reasoning,
        strengths := l1, weaknesses := l2,
        recommendation := r.recommendation, rank := r.rank } := by
    rw [decodeResultRow, e1, e2, loadsStrList_dumpsStrList, loadsStrList_dumpsStrList]
  exact ⟨_, hdec⟩


/-- Claim C3: `create_session` with N ranked results writes the session
row with `total_candidates = N` and exactly N result rows whose ranks are
1..N following the supplied order, as one unit; and after every sequence
of store operations, every observable session row's result-row count
equals its `total_candidates` column. -/
theorem C3_create_session_atomic (ops : List StoreOp) (jt c : String)
    (rs : List ScoreInput) (now : Nat) :
    (∃ srow ∈ (save_session (runOps ops) jt c rs now).1.sessions,
        srow.id = (save_session (runOps ops) jt c rs now).2 ∧
        srow.total_candidates = rs.length) ∧
    ((save_session (runOps ops) jt c rs now).1.results.filter
        (fun r => r.session_id == (save_session (runOps ops) jt c rs now).2)).map
        (fun r => r.rank)
      = List.range' 1 rs.length ∧
    ((save_session (runOps ops) jt c rs now).1.results.filter
        (fun r => r.session_id == (save_session (runOps ops) jt c rs now).2)).map
        (fun r => r.resume_id)
      = rs.map (fun i => i.resume_id) ∧
    (∀ ops2 : List StoreOp, ∀ s ∈ (runOps ops2).sessions,
        ((runOps ops2).results.filter fun r => r.session_id == s.id).length
          = s.total_candidates) := by
  have h := inv_runOps ops
  have hfil := filter_results_save h jt c rs now
  refine ⟨?_, ?_, ?_, fun ops2 => (inv_runOps ops2).counts⟩
  · exact ⟨_, List.mem_append.mpr (Or.inr (List.mem_singleton.mpr rfl)), rfl, rfl⟩
  · rw [show (save_session (runOps ops) jt c rs now).2 = (runOps ops).nextSessionId
      from rfl, hfil, List.map_map]
    have h2 : (fun r => r.rank) ∘ mkResultRow (runOps ops).nextSessionId
        (runOps ops).nextResultId = fun p : Nat × ScoreInput => p.1 + 1 := rfl
    rw [h2, List.range'_eq_map_range]
    calc rs.enum.map (fun p => p.1 + 1)
        = (rs.enum.map Prod.fst).map (fun x => x + 1) := by
          rw [List.map_map]; rfl
      _ = (List.range rs.length).map (fun x => x + 1) := by rw [List.enum_map_fst]
      _ = (List.range rs.length).map (fun x => 1 + x) :=
          List.map_congr_left (fun x _ => by omega)
  · rw [show (save_session (runOps ops) jt c rs now).2 = (runOps ops).nextSessionId
      from rfl, hfil, List.map_map]
    calc rs.enum.map ((fun r => r.resume_id) ∘ mkResultRow (runOps ops).nextSessionId
          (runOps ops).nextResultId)
        = (rs.enum.map Prod.snd).map (fun i => i.resume_id) := by
          rw [List.map_map]; rfl
      _ = rs.map (fun i => i.resume_id) := by rw [List.enum_map_snd]

theorem C3_witness :
    ((runOps [.save "j" "c" [] 0]).results.filter
        (fun r => r.session_id == (1 : Nat))).length = 0 := by
  have h := (C3_create_session_atomic [] "j" "c" [] 0).2.2.2
      [.save "j" "c" [] 0]
      { id := 1, job_title := "j", company := "c", timestamp := 0,
        is_hidden := false, total_candidates := 0 }
      (by decide)
  exact h

/-- Claim C4: `get_session` on an id with no session row — in particular
right after `delete_session` of that id — fails with the not-found
condition instead of returning data; `delete_session` removes the session
row and all its result rows, a second delete of the same id changes
nothing, and deleting a non-existent id is a no-op. -/
theorem C4_delete_get_notfound (ops : List StoreOp) (sid : Nat) :
    ((runOps ops).sessions.find? (fun s => s.id == sid) = none →
        get_session_results (runOps ops) sid = none) ∧
    get_session_results (delete_session (runOps ops) sid) sid = none ∧
    (∀ s ∈ (delete_session (runOps ops) sid).sessions, s.id ≠ sid) ∧
    (∀ r ∈ (delete_session (runOps ops) sid).results, r.session_id ≠ sid) ∧
    delete_session (delete_session (runOps ops) sid) sid
      = delete_session (runOps ops) sid ∧
    ((∀ s ∈ (runOps ops).sessions, s.id ≠ sid) →
        delete_session (runOps ops) sid = runOps ops) := by
  refine ⟨?_, ?_, ?_, ?_, ?_, ?_⟩
  · intro hfind
    rw [get_session_results, hfind]
  · have hfind : (delete_session (runOps ops) sid).sessions.find?
        (fun s => s.id == sid) = none := by
      rw [List.find?_eq_none]
      intro s hs
      have := (List.mem_filter.mp hs).2
      simpa using this
    rw [get_session_results, hfind]
  · intro s hs
    have := (List.mem_filter.mp hs).2
    simpa using this
  · intro r hr
    have := (List.mem_filter.mp hr).2
    simpa using this
  · simp only [delete_session]
    congr 1
    · rw [List.filter_filter]
      exact List.filter_congr (fun s _ => by simp)
    · rw [List.filter_filter]
      exact List.filter_congr (fun r _ => by simp)
  · intro hsess
    have h := inv_runOps ops
    rw [delete_session]
    have h1 : (runOps ops).sessions.filter (fun s => s.id != sid)
        = (runOps ops).sessions := by
      rw [List.filter_eq_self]
      intro s hs
      simpa using hsess s hs
    have h2 : (runOps ops).results.filter (fun r => r.session_id != sid)
        = (runOps ops).results := by
      rw [List.filter_eq_self]
      intro r hr
      obtain ⟨s, hs, hid⟩ := h.owner r hr
      have := hsess s hs
      simp
      omega
    rw [h1, h2]

theorem C4_witness :
    get_session_results (delete_session (runOps []) 1) 1 = none ∧
    delete_session (runOps []) 1 = runOps [] := by
  have h := C4_delete_get_notfound [] 1
  exact ⟨h.2.1, h.2.2.2.2.2 (by intro s hs; simp [runOps, ScreeningDatabase.init] at hs)⟩

/-- Claim C5: `hide_session` and `unhide_session` are idempotent, hiding
removes the session from `list_sessions(include_hidden=False)` but not
from `list_sessions(include_hidden=True)`, and after unhiding the session
is listed by both. -/
theorem C5_hide_unhide (db : ScreeningDatabase) (sid : Nat) :
    hide_session (hide_session db sid) sid = hide_session db sid ∧
    unhide_session (unhide_session db sid) sid = unhide_session db sid ∧
    (∀ s ∈ get_all_sessions (hide_session db sid) false, s.id ≠ sid) ∧
    ((∃ s ∈ db.sessions, s.id = sid) →
        ∃ s ∈ get_all_sessions (hide_session db sid) true, s.id = sid) ∧
    ((∃ s ∈ db.sessions, s.id = sid) →
        (∃ s ∈ get_all_sessions (unhide_session db sid) true, s.id = sid) ∧
        (∃ s ∈ get_all_sessions (unhide_session db sid) false, s.id = sid)) := by
  refine ⟨?_, ?_, ?_, ?_, ?_⟩
  · simp only [hide_session]
    congr 1
    rw [List.map_map]
    exact List.map_congr_left (fun s _ => by
      by_cases hs : s.id = sid <;> simp [hs])
  · simp only [unhide_session]
    congr 1
    rw [List.map_map]
    exact List.map_congr_left (fun s _ => by
      by_cases hs : s.id = sid <;> simp [hs])
  · intro s hs
    have hs2 : s ∈ (db.sessions.map fun s0 =>
        if s0.id = sid then { s0 with is_hidden := true } else s0).filter
          (fun s0 => !s0.is_hidden) := by
      simpa [get_all_sessions, hide_session] using hs
    obtain ⟨hmem, hvis⟩ := List.mem_filter.mp hs2
    obtain ⟨s0, hs0, rfl⟩ := List.mem_map.mp hmem
    by_cases h0 : s0.id = sid
    · rw [if_pos h0] at hvis
      simp at hvis
    · rw [if_neg h0]
      exact h0
  · rintro ⟨s0, hs0, hid⟩
    refine ⟨{ s0 with is_hidden := true }, ?_, hid⟩
    have : ({ s0 with is_hidden := true } : SessionRow) ∈ (hide_session db sid).sessions := by
      rw [hide_session]
      refine List.mem_map.mpr ⟨s0, hs0, ?_⟩
      rw [if_pos hid]
    simpa [get_all_sessions] using this
  · rintro ⟨s0, hs0, hid⟩
    have hmem : ({ s0 with is_hidden := false } : SessionRow)
        ∈ (unhide_session db sid).sessions := by
      rw [unhide_session]
      refine List.mem_map.mpr ⟨s0, hs0, ?_⟩
      rw [if_pos hid]
    constructor
    · exact ⟨{ s0 with is_hidden := false }, by simpa [get_all_sessions] using hmem, hid⟩
    · refine ⟨{ s0 with is_hidden := false }, ?_, hid⟩
      have : ({ s0 with is_hidden := false } : SessionRow)
          ∈ (unhide_session db sid).sessions.filter (fun s0 => !s0.is_hidden) :=
        List.mem_filter.mpr ⟨hmem, by simp⟩
      simpa [get_all_sessions] using this

theorem C5_witness :
    (∃ s ∈ get_all_sessions (hide_session (runOps [.save "j" "c" [] 0]) 1) true,
        s.id = 1) ∧
    (∃ s ∈ get_all_sessions (unhide_session (runOps [.save "j" "c" [] 0]) 1) false,
        s.id = 1) := by
  have h := C5_hide_unhide (runOps [.save "j" "c" [] 0]) 1
  have hex : ∃ s ∈ (runOps [.save "j" "c" [] 0]).sessions, s.id = 1 := by decide
  exact ⟨h.2.2.2.1 hex, (h.2.2.2.2 hex).2⟩


/-- Claim C6: the strengths and weaknesses collections are encoded with
`json.dumps` before the write and decoded with `json.loads` on both read
paths, so reading a freshly created session returns exactly the list
values supplied to `create_session` (a missing field reads back as the
empty list), never the raw encoded text. -/
theorem C6_collections_roundtrip (ops : List StoreOp) (jt c : String)
    (rs : List ScoreInput) (now : Nat) :
    ((save_session (runOps ops) jt c rs now).1.results.filter
        (fun r => r.session_id == (save_session (runOps ops) jt c rs now).2)).map
        (fun r => r.strengths)
      = rs.map (fun i => dumpsStrList (i.strengths.getD [])) ∧
    ((save_session (runOps ops) jt c rs now).1.results.filter
        (fun r => r.session_id == (save_session (runOps ops) jt c rs now).2)).map
        (fun r => r.weaknesses)
      = rs.map (fun i => dumpsStrList (i.weaknesses.getD [])) ∧
    get_session_results (save_session (runOps ops) jt c rs now).1
        (save_session (runOps ops) jt c rs now).2
      = some ({ id := (runOps ops).nextSessionId, job_title := jt, company := c,
                timestamp := now, is_hidden := false, total_candidates := rs.length },
              rs.enum.map (mkScoreOutput (runOps ops).nextSessionId
                (runOps ops).nextResultId)) ∧
    (rs.enum.map (mkScoreOutput (runOps ops).nextSessionId
        (runOps ops).nextResultId)).map (fun o => o.strengths)
      = rs.map (fun i => i.strengths.getD []) ∧
    (rs.enum.map (mkScoreOutput (runOps ops).nextSessionId
        (runOps ops).nextResultId)).map (fun o => o.weaknesses)
      = rs.map (fun i => i.weaknesses.getD []) ∧
    get_top_candidates (save_session (runOps ops) jt c rs now).1
        (save_session (runOps ops) jt c rs now).2 (Int.ofNat rs.length)
      = some (rs.enum.map (mkScoreOutput (runOps ops).nextSessionId
          (runOps ops).nextResultId)) := by
  have h := inv_runOps ops
  have hfil := filter_results_save h jt c rs now
  refine ⟨?_, ?_, get_session_results_save h jt c rs now, ?_, ?_,
    get_top_candidates_save h jt c rs now⟩
  · rw [show (save_session (runOps ops) jt c rs now).2 = (runOps ops).nextSessionId
      from rfl, hfil, List.map_map]
    calc rs.enum.map ((fun r => r.strengths) ∘ mkResultRow (runOps ops).nextSessionId
          (runOps ops).nextResultId)
        = (rs.enum.map Prod.snd).map (fun i => dumpsStrList (i.strengths.getD [])) := by
          rw [List.map_map]; rfl
      _ = rs.map (fun i => dumpsStrList (i.strengths.getD [])) := by
          rw [List.enum_map_snd]
  · rw [show (save_session (runOps ops) jt c rs now).2 = (runOps ops).nextSessionId
      from rfl, hfil, List.map_map]
    calc rs.enum.map ((fun r => r.weaknesses) ∘ mkResultRow (runOps ops).nextSessionId
          (runOps ops).nextResultId)
        = (rs.enum.map Prod.snd).map (fun i => dumpsStrList (i.weaknesses.getD [])) := by
          rw [List.map_map]; rfl
      _ = rs.map (fun i => dumpsStrList (i.weaknesses.getD [])) := by
          rw [List.enum_map_snd]
  · rw [List.map_map]
    calc rs.enum.map ((fun o => o.strengths) ∘ mkScoreOutput (runOps ops).nextSessionId
          (runOps ops).nextResultId)
        = (rs.enum.map Prod.snd).map (fun i => i.strengths.getD []) := by
          rw [List.map_map]; rfl
      _ = rs.map (fun i => i.strengths.getD []) := by rw [List.enum_map_snd]
  · rw [List.map_map]
    calc rs.enum.map ((fun o => o.weaknesses) ∘ mkScoreOutput (runOps ops).nextSessionId
          (runOps ops).nextResultId)
        = (rs.enum.map Prod.snd).map (fun i => i.weaknesses.getD []) := by
          rw [List.map_map]; rfl
      _ = rs.map (fun i => i.weaknesses.getD []) := by rw [List.enum_map_snd]

/-- Claim C7 counterexample: with one stored result, `top_candidates`
with `n = 0` returns the empty list — SQLite's `LIMIT 0` returns no
rows — even though one record is available, so "n ≤ 0 returns what is
available" fails at n = 0. -/
theorem C7_counterexample :
    get_top_candidates
        (runOps [.save "j" "c"
          [⟨"cv_pdf", "Jane", 90, 80, 70, 60, "ok", some ["s1"], some [], "HIRE"⟩] 0])
        1 0
      = some [] ∧
    ((runOps [.save "j" "c"
          [⟨"cv_pdf", "Jane", 90, 80, 70, 60, "ok", some ["s1"], some [], "HIRE"⟩] 0]).results.filter
        (fun r => r.session_id == 1)).length = 1 := by
  constructor
  · decide
  · decide

/-- Claim C7, corrected: `top_candidates(session_id, n)` never errors on
a reachable store state; for n ≥ 0 it returns the first `min n k` of the
k stored records in persisted-rank order (so n = 0 returns the empty
list and n > k returns all k), and for n < 0 SQLite's unbounded LIMIT
returns all k records. -/
theorem C7_amended (ops : List StoreOp) (sid : Nat) (n : Int) :
    ∃ rows, (sessionResultRows (runOps ops) sid).mapM decodeResultRow = some rows ∧
      get_top_candidates (runOps ops) sid n
        = some (if n < 0 then rows else rows.take n.toNat) := by
  obtain ⟨rows, hrows⟩ := decodeRows_of_inv (inv_runOps ops) sid
  refine ⟨rows, hrows, ?_⟩
  rw [get_top_candidates]
  by_cases hn : n < 0
  · rw [if_pos hn, if_pos hn]
    exact hrows
  · rw [if_neg hn, if_neg hn]
    exact mapM_take_of_mapM _ _ _ _ hrows

/-- Claim C10: no orphan result rows: after every operation sequence each
result row's session id names an existing session row; `save_session`
stamps every new result row with the created session id, `delete_session`
removes a session's result rows together with its session row, and
`clear_all_history` empties both tables. -/
theorem C10_no_orphan_results :
    (∀ ops : List StoreOp, ∀ r ∈ (runOps ops).results,
        ∃ s ∈ (runOps ops).sessions, s.id = r.session_id) ∧
    (∀ (db : ScreeningDatabase) (jt c : String) (rs : List ScoreInput) (now : Nat),
        ∀ r ∈ (save_session db jt c rs now).1.results,
          r ∈ db.results ∨ r.session_id = (save_session db jt c rs now).2) ∧
    (∀ (db : ScreeningDatabase) (sid : Nat),
        (∀ r ∈ (delete_session db sid).results, r.session_id ≠ sid) ∧
        (∀ s ∈ (delete_session db sid).sessions, s.id ≠ sid)) ∧
    (∀ db : ScreeningDatabase,
        (clear_all_history db).results = [] ∧ (clear_all_history db).sessions = []) := by
  refine ⟨fun ops => (inv_runOps ops).owner, ?_, ?_, fun db => ⟨rfl, rfl⟩⟩
  · intro db jt c rs now r hr
    rw [show (save_session db jt c rs now).1.results = db.results ++
        rs.enum.map (mkResultRow db.nextSessionId db.nextResultId) from rfl] at hr
    rcases List.mem_append.mp hr with hr | hr
    · exact Or.inl hr
    · exact Or.inr (mem_saveRows hr)
  · intro db sid
    constructor
    · intro r hr
      have := (List.mem_filter.mp hr).2
      simpa using this
    · intro s hs
      have := (List.mem_filter.mp hs).2
      simpa using this

theorem C10_witness :
    ∃ s ∈ (runOps [.save "j" "c"
        [⟨"cv_pdf", "Jane", 90, 80, 70, 60, "ok", some ["s1"], some [], "HIRE"⟩] 0]).sessions,
      s.id = (1 : Nat) :=
  C10_no_orphan_results.1
    [.save "j" "c" [⟨"cv_pdf", "Jane", 90, 80, 70, 60, "ok", some ["s1"], some [], "HIRE"⟩] 0]
    { id := 1, session_id := 1, resume_id := "cv_pdf", candidate_name := "Jane",
      overall_score := 90, skills_match_score := 80, experience_score := 70,
      education_score := 60, reasoning := "ok",
      strengths := dumpsStrList ["s1"], weaknesses := dumpsStrList [],
      recommendation := "HIRE", rank := 1 }
    (by decide)

end ResumeScreening
